import Mathlib

/-!
Verification of the note-api service: a shallow embedding of
`src/note_api/main.py` (backend selector and HTTP route handlers) together
with models of the storage backends described by the specification.

The repository's `backends.py` and `model.py` modules are imported by
`main.py` but are not part of the provided sources, so the data model and
the three backend variants are modelled from the specification
(sections 3, 4.1-4.4 and 6); `main.py` itself is embedded directly.
-/

namespace NoteApi

/-- Modelled from the spec: the Note record of `model.py` (missing from the
sources) — identifier, title and content, all strings (spec section 3). -/
structure Note where
  id : String
  title : String
  content : String
deriving DecidableEq

/-- Modelled from the spec: the CreateNoteRequest record of `model.py`
(missing from the sources) — title and content, no identifier
(spec section 3). -/
structure CreateNoteRequest where
  title : String
  content : String
deriving DecidableEq

/-- Modelled from the spec: the error taxonomy of section 7 — NotFound for a
missing identifier, BackendUnavailable for a failed network call. -/
inductive BackendError where
  | notFound
  | backendUnavailable
deriving DecidableEq

/-- Modelled from the spec: the polymorphic Backend contract of
`backends.py` (missing from the sources) — the capability set
{get, set, keys} over an explicit backend state of type sigma
(spec section 4.1). State is passed explicitly: `set` returns the updated
state, `get` and `keys` read it. -/
structure Backend (σ : Type) where
  get : σ → String → Except BackendError Note
  set : σ → String → CreateNoteRequest → σ
  keys : σ → List String

/-- Insert-or-overwrite on an association list, mirroring assignment into a
key-value mapping: replaces the value at the key in place if present,
appends the pair otherwise. -/
def setAssoc {α : Type} (l : List (String × α)) (k : String) (v : α) : List (String × α) :=
  match l with
  | [] => [(k, v)]
  | (k', v') :: rest => if k' = k then (k, v) :: rest else (k', v') :: setAssoc rest k v

/-- Lookup on an association list, mirroring key-value mapping lookup. -/
def getAssoc {α : Type} (l : List (String × α)) (k : String) : Option α :=
  match l with
  | [] => none
  | (k', v') :: rest => if k' = k then some v' else getAssoc rest k

/-- The state of the Memory backend: a process-local key-to-Note mapping. -/
abbrev MemState := List (String × Note)

/-- Modelled from the spec: the Memory variant's `get` — direct lookup,
NotFound when missing (spec section 4.2). -/
def memGet (st : MemState) (k : String) : Except BackendError Note :=
  match getAssoc st k with
  | some n => Except.ok n
  | none => Except.error BackendError.notFound

/-- Modelled from the spec: the Memory variant's `set` — direct
insert/overwrite of the Note built from the request, the identifier taken
from the storage key (spec sections 3 and 4.2). -/
def memSet (st : MemState) (k : String) (req : CreateNoteRequest) : MemState :=
  setAssoc st k (Note.mk k req.title req.content)

/-- Modelled from the spec: the Memory variant's `keys` — a snapshot of the
current keys (spec section 4.2). -/
def memKeys (st : MemState) : List String :=
  st.map Prod.fst

/-- Modelled from the spec: the MemoryBackend class of `backends.py`
(missing from the sources) — volatile process-local key-to-Note mapping
(spec section 4.2). -/
def MemoryBackend : Backend MemState where
  get := memGet
  set := memSet
  keys := memKeys

/-- Modelled from the spec: the wire payload of section 6 — a structured
record with fields title and content; the identifier is carried as the
storage key, not embedded in the payload. -/
structure Payload where
  title : String
  content : String
deriving DecidableEq

/-- Serialization of a request into the wire payload (spec section 6). -/
def serializeRequest (req : CreateNoteRequest) : Payload :=
  Payload.mk req.title req.content

/-- Deserialization of a stored payload into a Note; the identifier comes
from the storage key (spec section 6). -/
def deserializeNote (k : String) (p : Payload) : Note :=
  Note.mk k p.title p.content

/-- The state of the Remote Cache backend: the key-to-payload contents of
the network key-value store, with the network modelled as available. -/
abbrev RedisState := List (String × Payload)

/-- Modelled from the spec: the Remote Cache variant's `get` — network
lookup by identifier, deserializing the stored payload into a Note,
NotFound when the key is absent (spec section 4.3). -/
def redisGet (st : RedisState) (k : String) : Except BackendError Note :=
  match getAssoc st k with
  | some p => Except.ok (deserializeNote k p)
  | none => Except.error BackendError.notFound

/-- Modelled from the spec: the Remote Cache variant's `set` — serializes
the request into a wire payload and writes it under the key
(spec section 4.3). -/
def redisSet (st : RedisState) (k : String) (req : CreateNoteRequest) : RedisState :=
  setAssoc st k (serializeRequest req)

/-- Modelled from the spec: the Remote Cache variant's `keys` — a key scan
against the service (spec section 4.3). -/
def redisKeys (st : RedisState) : List String :=
  st.map Prod.fst

/-- Modelled from the spec: the RedisBackend class of `backends.py`
(missing from the sources) — delegates storage to a network key-value
cache (spec section 4.3). The network is modelled as available, so the
BackendUnavailable branch of the taxonomy is never taken. -/
def RedisBackend : Backend RedisState where
  get := redisGet
  set := redisSet
  keys := redisKeys

/-- The state of the Object Store backend: one serialized object per note,
named by the identifier, with transport modelled as available. -/
abbrev GcsState := List (String × Payload)

/-- Modelled from the spec: the Object Store variant's `get` — downloads
the object named by the identifier and deserializes its payload, NotFound
when the object does not exist (spec section 4.4). -/
def gcsGet (st : GcsState) (k : String) : Except BackendError Note :=
  match getAssoc st k with
  | some p => Except.ok (deserializeNote k p)
  | none => Except.error BackendError.notFound

/-- Modelled from the spec: the Object Store variant's `set` — serializes
the request and uploads/overwrites the object named by the identifier
(spec section 4.4). -/
def gcsSet (st : GcsState) (k : String) (req : CreateNoteRequest) : GcsState :=
  setAssoc st k (serializeRequest req)

/-- Modelled from the spec: the Object Store variant's `keys` — lists the
object names in the configured container (spec section 4.4). -/
def gcsKeys (st : GcsState) : List String :=
  st.map Prod.fst

/-- Modelled from the spec: the GCSBackend class of `backends.py` (missing
from the sources) — delegates storage to a cloud blob store, one object
per note (spec section 4.4). Transport is modelled as available, so
BackendUnavailable is never raised. -/
def GCSBackend : Backend GcsState where
  get := gcsGet
  set := gcsSet
  keys := gcsKeys

/-- The backend variant constructed by the selector: which of the three
classes of `backends.py` `get_backend` instantiates. -/
inductive BackendType where
  | memory
  | redis
  | gcs
deriving DecidableEq

/-- The selection branch of `get_backend` (main.py lines 38-45):
`backend_type = getenv(BACKEND, memory)` followed by the if/elif/else chain
on the values `redis` and `gcs`, with everything else falling through to
`MemoryBackend()`. The environment variable is `none` when unset. -/
def selectBackend (env : Option String) : BackendType :=
  let backend_type := env.getD ("memory")
  if backend_type = ("redis") then BackendType.redis
  else if backend_type = ("gcs") then BackendType.gcs
  else BackendType.memory

/-- `get_backend` (main.py lines 35-46) as a transition on the module-level
variable `my_backend : Optional[Backend]`: when the cached value is `none`
the environment is read and a variant constructed and cached; otherwise the
cached variant is returned untouched. Returns the resolved variant and the
new value of `my_backend`. -/
def get_backend (env : Option String) (my_backend : Option BackendType) :
    BackendType × Option BackendType :=
  match my_backend with
  | some b => (b, some b)
  | none => (selectBackend env, some (selectBackend env))

/-- A sequence of accesses to the selector: each access may observe a
different environment value (the list element), threading `my_backend`
through. Returns the variants handed out and the final cached state. -/
def runAccesses (envs : List (Option String)) (st : Option BackendType) :
    List BackendType × Option BackendType :=
  match envs with
  | [] => ([], st)
  | e :: es =>
    let r := get_backend e st
    let rs := runAccesses es r.2
    (r.1 :: rs.1, rs.2)

/-- The loop body of `get_notes` (main.py lines 58-62): iterate over the
keys, appending `backend.get(key)` to the accumulator; a raised
backend error aborts the whole request. -/
def notesLoop {σ : Type} (B : Backend σ) (st : σ) :
    List String → List Note → Except BackendError (List Note)
  | [], acc => Except.ok acc
  | k :: ks, acc =>
    match B.get st k with
    | Except.error e => Except.error e
    | Except.ok n => notesLoop B st ks (acc ++ [n])

/-- The `GET /notes` handler `get_notes` (main.py lines 55-62):
`keys = backend.keys()`, then the accumulation loop starting from the
empty list. -/
def get_notes {σ : Type} (B : Backend σ) (st : σ) : Except BackendError (List Note) :=
  notesLoop B st (B.keys st) []

/-- Direct per-key reads: `backend.get` applied to each key in order, the
list of Notes or the first error. Stated by the spec as the behaviour of
the list endpoint: keys() then get() per key. -/
def mapGet {σ : Type} (B : Backend σ) (st : σ) :
    List String → Except BackendError (List Note)
  | [] => Except.ok []
  | k :: ks =>
    match B.get st k with
    | Except.error e => Except.error e
    | Except.ok n =>
      match mapGet B st ks with
      | Except.error e => Except.error e
      | Except.ok ns => Except.ok (n :: ns)

/-- The `GET /notes/{note_id}` handler `get_note`
(main.py lines 65-69): a single `backend.get(note_id)`. -/
def get_note {σ : Type} (note_id : String) (B : Backend σ) (st : σ) :
    Except BackendError Note :=
  B.get st note_id

/-- The `PUT /notes/{note_id}` handler `update_note`
(main.py lines 72-77): a single `backend.set(note_id, request)`. -/
def update_note {σ : Type} (note_id : String) (request : CreateNoteRequest)
    (B : Backend σ) (st : σ) : σ :=
  B.set st note_id request

/-- The `POST /notes` handler `create_note` (main.py lines 80-88):
`note_id = str(uuid4())`, one `backend.set(note_id, request)`, and the
identifier is returned. The nondeterministic uuid4 draw is passed in as the
`note_id` argument. Returns the response string and the new backend state. -/
def create_note {σ : Type} (note_id : String) (request : CreateNoteRequest)
    (B : Backend σ) (st : σ) : String × σ :=
  (note_id, B.set st note_id request)

/-- A run of `PUT` upserts from an initial state: folds `update_note` over
a list of (identifier, request) operations. -/
def runUpdates {σ : Type} (B : Backend σ) (st : σ)
    (ops : List (String × CreateNoteRequest)) : σ :=
  ops.foldl (fun s p => update_note p.1 p.2 B s) st

/-- The per-key relation realised by the list endpoint: reading key `k`
from state `st` yields exactly the note `n`. -/
def getsTo {σ : Type} (B : Backend σ) (st : σ) (k : String) (n : Note) : Prop :=
  B.get st k = Except.ok n

/-- The variant named by a configuration value according to the spec's own
enumeration (written from the spec's words, for comparison with
`selectBackend`): configuration surface `memory | remote-cache |
object-store`, where Remote Cache is the Redis variant and Object Store the
GCS variant. -/
def specVariantNamed : String → Option BackendType
  | "memory" => some BackendType.memory
  | "remote-cache" => some BackendType.redis
  | "object-store" => some BackendType.gcs
  | _ => none

/-- Program counter of one simulated caller racing on the first access to
`get_backend`: not yet started; performed the read of `my_backend`
(recording whether it observed `None`); finished. -/
inductive Pc where
  | start
  | readDone (sawNone : Bool)
  | done
deriving DecidableEq

/-- Shared state of the first-access race: whether `my_backend` is set, how
many backend instances have been constructed so far, and each caller's
program counter. `get_backend`'s body is split at its only interleaving
point, between the `my_backend is None` read and the construct-and-assign
write. -/
structure SelState where
  flag : Bool
  count : Nat
  pcs : Nat → Pc

/-- One atomic step of caller `i`: a caller at `start` reads `my_backend`;
a caller that observed `None` constructs an instance and assigns it
(incrementing the construction count); a caller that observed a cached
instance returns it; a finished caller does nothing. -/
def step (s : SelState) (i : Nat) : SelState :=
  match s.pcs i with
  | Pc.start =>
    { s with pcs := fun j => if j = i then Pc.readDone (!s.flag) else s.pcs j }
  | Pc.readDone true =>
    { flag := true, count := s.count + 1,
      pcs := fun j => if j = i then Pc.done else s.pcs j }
  | Pc.readDone false =>
    { s with pcs := fun j => if j = i then Pc.done else s.pcs j }
  | Pc.done => s

/-- Run a schedule: the interleaving is the list of caller indices, each
entry letting that caller take its next atomic step. -/
def run (sched : List Nat) (s : SelState) : SelState :=
  sched.foldl step s

/-- The initial race state: `my_backend` unset, nothing constructed, every
caller about to make its first access. -/
def selInit : SelState where
  flag := false
  count := 0
  pcs := fun _ => Pc.start

/-- Looking up the key just written finds the value just written. -/
theorem getAssoc_setAssoc_self {α : Type} (l : List (String × α)) (k : String) (v : α) :
    getAssoc (setAssoc l k v) k = some v := by
  induction l with
  | nil => simp [setAssoc, getAssoc]
  | cons hd tl ih =>
    obtain ⟨k', v'⟩ := hd
    by_cases h : k' = k
    · simp [setAssoc, getAssoc, h]
    · simp [setAssoc, getAssoc, h, ih]

/-- Writing one key leaves lookups of any other key unchanged. -/
theorem getAssoc_setAssoc_ne {α : Type} (l : List (String × α)) (k k₀ : String) (v : α)
    (h : k₀ ≠ k) : getAssoc (setAssoc l k v) k₀ = getAssoc l k₀ := by
  induction l with
  | nil => simp [setAssoc, getAssoc, Ne.symm h]
  | cons hd tl ih =>
    obtain ⟨k', v'⟩ := hd
    by_cases hk : k' = k
    · subst hk
      simp [setAssoc, getAssoc, Ne.symm h]
    · simp [setAssoc, getAssoc, hk, ih]

/-- A fold of writes that never touches the key `k` leaves lookups of `k`
unchanged. -/
theorem getAssoc_fold_not_mem {β : Type} (g : String → CreateNoteRequest → β)
    (ops : List (String × CreateNoteRequest)) :
    ∀ (l : List (String × β)) (k : String), k ∉ ops.map Prod.fst →
      getAssoc (ops.foldl (fun s p => setAssoc s p.1 (g p.1 p.2)) l) k = getAssoc l k := by
  induction ops with
  | nil =>
    intro l k _
    rfl
  | cons op ops ih =>
    intro l k h
    simp only [List.map_cons, List.mem_cons] at h
    push_neg at h
    obtain ⟨h1, h2⟩ := h
    rw [List.foldl_cons, ih _ k h2]
    exact getAssoc_setAssoc_ne l op.1 k (g op.1 op.2) h1

/-- Once the selector holds a cached instance, every further access hands
out that instance and leaves the cache untouched, whatever the observed
environment values. -/
theorem runAccesses_cached (envs : List (Option String)) (b : BackendType) :
    runAccesses envs (some b) = (envs.map (fun _ => b), some b) := by
  induction envs with
  | nil => rfl
  | cons e es ih => simp [runAccesses, get_backend, ih]

/-- The accumulating loop of the list endpoint computes the per-key reads:
it returns the accumulator extended by `mapGet` of the remaining keys, or
the first error. -/
theorem notesLoop_mapGet {σ : Type} (B : Backend σ) (st : σ) :
    ∀ (ks : List String) (acc : List Note),
      notesLoop B st ks acc = (mapGet B st ks).map (fun ns => acc ++ ns) := by
  intro ks
  induction ks with
  | nil =>
    intro acc
    simp [notesLoop, mapGet, Except.map]
  | cons k ks ih =>
    intro acc
    cases hg : B.get st k with
    | error e => simp [notesLoop, mapGet, hg, Except.map]
    | ok n =>
      simp only [notesLoop, mapGet, hg]
      rw [ih]
      cases hm : mapGet B st ks with
      | error e => simp [Except.map]
      | ok ns => simp [Except.map]

/-- A successful `mapGet` relates keys to returned notes pointwise and in
order. -/
theorem mapGet_ok_forall2 {σ : Type} (B : Backend σ) (st : σ) :
    ∀ (ks : List String) (ns : List Note), mapGet B st ks = Except.ok ns →
      List.Forall₂ (getsTo B st) ks ns := by
  intro ks
  induction ks with
  | nil =>
    intro ns h
    simp only [mapGet, Except.ok.injEq] at h
    subst h
    exact List.Forall₂.nil
  | cons k ks ih =>
    intro ns h
    cases hg : B.get st k with
    | error e => simp [mapGet, hg] at h
    | ok n =>
      cases hm : mapGet B st ks with
      | error e => simp [mapGet, hg, hm] at h
      | ok ns' =>
        simp only [mapGet, hg, hm, Except.ok.injEq] at h
        subst h
        exact List.Forall₂.cons hg (ih ns' hm)

/-- Once an instance is cached and no caller still holds a stale `None`
observation, no step constructs another instance, and neither the cache
flag nor the stale-free property is lost. -/
theorem step_settled (s : SelState) (i : Nat) (hf : s.flag = true)
    (hp : ∀ j, s.pcs j ≠ Pc.readDone true) :
    (step s i).flag = true ∧ (step s i).count = s.count ∧
      ∀ j, (step s i).pcs j ≠ Pc.readDone true := by
  cases hpc : s.pcs i with
  | start =>
    refine ⟨by simp [step, hpc, hf], by simp [step, hpc], ?_⟩
    intro j
    simp only [step, hpc]
    by_cases hj : j = i
    · simp [hj, hf]
    · simp only [hj, if_false]
      exact hp j
  | readDone sawNone =>
    cases sawNone with
    | true => exact absurd hpc (hp i)
    | false =>
      refine ⟨by simp [step, hpc, hf], by simp [step, hpc], ?_⟩
      intro j
      simp only [step, hpc]
      by_cases hj : j = i
      · simp [hj]
      · simp only [hj, if_false]
        exact hp j
  | done =>
    refine ⟨by simp [step, hpc, hf], by simp [step, hpc], ?_⟩
    intro j
    simp only [step, hpc]
    exact hp j

/-- Running any schedule from a settled state (instance cached, no stale
`None` observation pending) constructs nothing further. -/
theorem run_settled (sched : List Nat) :
    ∀ (s : SelState), s.flag = true → (∀ j, s.pcs j ≠ Pc.readDone true) →
      (run sched s).count = s.count := by
  induction sched with
  | nil =>
    intro s _ _
    rfl
  | cons i sched ih =>
    intro s hf hp
    obtain ⟨h1, h2, h3⟩ := step_settled s i hf hp
    have hr : run (i :: sched) s = run sched (step s i) := rfl
    rw [hr, ih (step s i) h1 h3, h2]

/-- C1 counterexample: at the configuration value `remote-cache` — a member
of the spec's enumerated set, naming the Remote Cache variant — the
selector constructs the Memory variant, not the variant named by the
value. -/
theorem C1_selector_counterexample :
    selectBackend (some ("remote-cache")) = BackendType.memory ∧
    specVariantNamed ("remote-cache") = some BackendType.redis ∧
    selectBackend (some ("remote-cache")) ≠ BackendType.redis := by
  refine ⟨rfl, rfl, ?_⟩
  decide

/-- C1 (amended): the configuration values the selector recognizes are
`redis` (constructing the Remote Cache variant) and `gcs` (constructing
the Object Store variant); the value `memory`, an absent value, and every
other value — including the spec's labels `remote-cache` and
`object-store` themselves — construct the Memory variant, without
raising an error. -/
theorem C1_selector_amended :
    selectBackend (some ("redis")) = BackendType.redis ∧
    selectBackend (some ("gcs")) = BackendType.gcs ∧
    selectBackend (some ("memory")) = BackendType.memory ∧
    selectBackend none = BackendType.memory ∧
    ∀ v : String, v ≠ ("redis") → v ≠ ("gcs") →
      selectBackend (some v) = BackendType.memory := by
  refine ⟨rfl, rfl, rfl, rfl, ?_⟩
  intro v h1 h2
  simp [selectBackend, h1, h2]

/-- Witness for C1 (amended) at the concrete unrecognized value
`object-store`. -/
theorem C1_selector_amended_witness :
    selectBackend (some ("object-store")) = BackendType.memory :=
  C1_selector_amended.2.2.2.2 ("object-store") (by decide) (by decide)

/-- C2: once the first access has constructed and cached an instance, every
subsequent access returns that same instance whatever environment values
are observed later (the configuration is not re-read), and the cached state
never returns to uninitialized. -/
theorem C2_selector_caches_instance :
    ∀ (env₀ : Option String) (envs : List (Option String)),
      (get_backend env₀ none).2 = some (get_backend env₀ none).1 ∧
      runAccesses envs (get_backend env₀ none).2 =
        (envs.map (fun _ => (get_backend env₀ none).1),
          some (get_backend env₀ none).1) := by
  intro env₀ envs
  refine ⟨rfl, ?_⟩
  have h : get_backend env₀ none = (selectBackend env₀, some (selectBackend env₀)) := rfl
  rw [h]
  exact runAccesses_cached envs (selectBackend env₀)

/-- C3 counterexample: with two callers racing on the very first access
under the interleaving read-A, read-B, write-A, write-B, the checked-then-
set selector constructs two backend instances, not exactly one. -/
theorem C3_race_counterexample :
    (run [0, 1, 0, 1] selInit).count = 2 ∧ (run [0, 1, 0, 1] selInit).count ≠ 1 := by
  refine ⟨rfl, ?_⟩
  decide

/-- C3 (amended): exactly one backend instance is constructed whenever some
caller completes its first access before any other caller begins —
concurrent first accesses whose check-then-set sections interleave can
construct one instance per caller, as the counterexample shows. -/
theorem C3_race_amended :
    ∀ rest : List Nat, (run (0 :: 0 :: rest) selInit).count = 1 := by
  intro rest
  have hr : run (0 :: 0 :: rest) selInit = run rest (step (step selInit 0) 0) := rfl
  have hf : (step (step selInit 0) 0).flag = true := rfl
  have hc : (step (step selInit 0) 0).count = 1 := rfl
  have hp : ∀ j, (step (step selInit 0) 0).pcs j ≠ Pc.readDone true := by
    intro j
    by_cases hj : j = 0
    · subst hj
      decide
    · have hpj : (step (step selInit 0) 0).pcs j = Pc.start := by
        simp [step, selInit, hj]
      rw [hpj]
      simp
  rw [hr, run_settled rest (step (step selInit 0) 0) hf hp, hc]

/-- C4: for every backend variant, every identifier and every request,
setting and then getting the identifier returns a Note carrying exactly the
request's title and content. -/
theorem C4_set_get_roundtrip :
    ∀ (k : String) (req : CreateNoteRequest),
      (∀ st : MemState, get_note k MemoryBackend (update_note k req MemoryBackend st) =
          Except.ok (Note.mk k req.title req.content)) ∧
      (∀ st : RedisState, get_note k RedisBackend (update_note k req RedisBackend st) =
          Except.ok (Note.mk k req.title req.content)) ∧
      (∀ st : GcsState, get_note k GCSBackend (update_note k req GCSBackend st) =
          Except.ok (Note.mk k req.title req.content)) := by
  intro k req
  refine ⟨fun st => ?_, fun st => ?_, fun st => ?_⟩
  · simp [get_note, update_note, MemoryBackend, memGet, memSet, getAssoc_setAssoc_self]
  · simp [get_note, update_note, RedisBackend, redisGet, redisSet,
      getAssoc_setAssoc_self, deserializeNote, serializeRequest]
  · simp [get_note, update_note, GCSBackend, gcsGet, gcsSet,
      getAssoc_setAssoc_self, deserializeNote, serializeRequest]

/-- C5: for every backend variant, setting an identifier twice and then
getting it returns the second request's data in full — the second set
completely overwrites the first. -/
theorem C5_second_set_overwrites :
    ∀ (k : String) (r1 r2 : CreateNoteRequest),
      (∀ st : MemState,
        get_note k MemoryBackend
            (update_note k r2 MemoryBackend (update_note k r1 MemoryBackend st)) =
          Except.ok (Note.mk k r2.title r2.content)) ∧
      (∀ st : RedisState,
        get_note k RedisBackend
            (update_note k r2 RedisBackend (update_note k r1 RedisBackend st)) =
          Except.ok (Note.mk k r2.title r2.content)) ∧
      (∀ st : GcsState,
        get_note k GCSBackend
            (update_note k r2 GCSBackend (update_note k r1 GCSBackend st)) =
          Except.ok (Note.mk k r2.title r2.content)) := by
  intro k r1 r2
  refine ⟨fun st => ?_, fun st => ?_, fun st => ?_⟩
  · simp [get_note, update_note, MemoryBackend, memGet, memSet, getAssoc_setAssoc_self]
  · simp [get_note, update_note, RedisBackend, redisGet, redisSet,
      getAssoc_setAssoc_self, deserializeNote, serializeRequest]
  · simp [get_note, update_note, GCSBackend, gcsGet, gcsSet,
      getAssoc_setAssoc_self, deserializeNote, serializeRequest]

/-- C6: for every backend variant, an identifier never passed to set —
starting from the empty store and running any sequence of upserts that
avoids it — fails with NotFound when read. -/
theorem C6_get_never_set_not_found :
    ∀ (ops : List (String × CreateNoteRequest)) (k : String), k ∉ ops.map Prod.fst →
      get_note k MemoryBackend (runUpdates MemoryBackend [] ops) =
          Except.error BackendError.notFound ∧
      get_note k RedisBackend (runUpdates RedisBackend [] ops) =
          Except.error BackendError.notFound ∧
      get_note k GCSBackend (runUpdates GCSBackend [] ops) =
          Except.error BackendError.notFound := by
  intro ops k h
  refine ⟨?_, ?_, ?_⟩
  · have hg := getAssoc_fold_not_mem (fun k' req => Note.mk k' req.title req.content) ops [] k h
    have hrun : getAssoc (runUpdates MemoryBackend [] ops) k = none := by
      simpa [runUpdates, update_note, MemoryBackend, memSet, getAssoc] using hg
    have hproj : MemoryBackend.get = memGet := rfl
    simp only [get_note]
    rw [hproj]
    simp only [memGet]
    rw [hrun]
  · have hg := getAssoc_fold_not_mem (fun _ req => serializeRequest req) ops [] k h
    have hrun : getAssoc (runUpdates RedisBackend [] ops) k = none := by
      simpa [runUpdates, update_note, RedisBackend, redisSet, getAssoc] using hg
    have hproj : RedisBackend.get = redisGet := rfl
    simp only [get_note]
    rw [hproj]
    simp only [redisGet]
    rw [hrun]
  · have hg := getAssoc_fold_not_mem (fun _ req => serializeRequest req) ops [] k h
    have hrun : getAssoc (runUpdates GCSBackend [] ops) k = none := by
      simpa [runUpdates, update_note, GCSBackend, gcsSet, getAssoc] using hg
    have hproj : GCSBackend.get = gcsGet := rfl
    simp only [get_note]
    rw [hproj]
    simp only [gcsGet]
    rw [hrun]

/-- Witness for C6 at a concrete run: one upsert under key `a`, then a read
of the untouched key `b`, on each variant. -/
theorem C6_get_never_set_witness :
    get_note ("b") MemoryBackend
        (runUpdates MemoryBackend [] [(("a"), CreateNoteRequest.mk ("t") ("c"))]) =
      Except.error BackendError.notFound ∧
    get_note ("b") RedisBackend
        (runUpdates RedisBackend [] [(("a"), CreateNoteRequest.mk ("t") ("c"))]) =
      Except.error BackendError.notFound ∧
    get_note ("b") GCSBackend
        (runUpdates GCSBackend [] [(("a"), CreateNoteRequest.mk ("t") ("c"))]) =
      Except.error BackendError.notFound :=
  C6_get_never_set_not_found [(("a"), CreateNoteRequest.mk ("t") ("c"))] ("b") (by decide)

/-- C7: with no configuration value set the selector picks the Memory
variant — the very same variant picked under the explicit value `memory`,
so the two configurations behave identically. -/
theorem C7_default_equals_explicit_memory :
    selectBackend none = BackendType.memory ∧
    selectBackend (some ("memory")) = BackendType.memory ∧
    get_backend none none = get_backend (some ("memory")) none :=
  ⟨rfl, rfl, rfl⟩

/-- C8: for every backend and every backend state, the list endpoint
computes exactly keys() followed by one get() per returned key — the array
of the resulting Notes, or the first error raised. -/
theorem C8_list_is_keys_then_get :
    ∀ (σ : Type) (B : Backend σ) (st : σ),
      get_notes B st = mapGet B st (B.keys st) := by
  intro σ B st
  rw [get_notes, notesLoop_mapGet]
  cases mapGet B st (B.keys st) with
  | error e => simp [Except.map]
  | ok ns => simp [Except.map]

/-- C9: the create endpoint returns precisely the generated identifier,
changes the state by exactly one set of the request under that identifier,
and on each variant a get at the returned string finds the stored note —
the response equals the storage key. -/
theorem C9_create_returns_storage_key :
    ∀ (nid : String) (req : CreateNoteRequest),
      (∀ (σ : Type) (B : Backend σ) (st : σ),
        create_note nid req B st = (nid, B.set st nid req)) ∧
      (∀ st : MemState,
        get_note (create_note nid req MemoryBackend st).1 MemoryBackend
            (create_note nid req MemoryBackend st).2 =
          Except.ok (Note.mk nid req.title req.content)) ∧
      (∀ st : RedisState,
        get_note (create_note nid req RedisBackend st).1 RedisBackend
            (create_note nid req RedisBackend st).2 =
          Except.ok (Note.mk nid req.title req.content)) ∧
      (∀ st : GcsState,
        get_note (create_note nid req GCSBackend st).1 GCSBackend
            (create_note nid req GCSBackend st).2 =
          Except.ok (Note.mk nid req.title req.content)) := by
  intro nid req
  refine ⟨fun σ B st => rfl, fun st => ?_, fun st => ?_, fun st => ?_⟩
  · simp [create_note, get_note, MemoryBackend, memGet, memSet, getAssoc_setAssoc_self]
  · simp [create_note, get_note, RedisBackend, redisGet, redisSet,
      getAssoc_setAssoc_self, deserializeNote, serializeRequest]
  · simp [create_note, get_note, GCSBackend, gcsGet, gcsSet,
      getAssoc_setAssoc_self, deserializeNote, serializeRequest]

/-- C10: a successful list result holds exactly one Note per key returned
by keys(), related to the keys pointwise in the same order; when keys() is
empty the result is the empty list. -/
theorem C10_one_note_per_key_in_order :
    ∀ (σ : Type) (B : Backend σ) (st : σ) (ns : List Note),
      (get_notes B st = Except.ok ns →
        ns.length = (B.keys st).length ∧
          List.Forall₂ (getsTo B st) (B.keys st) ns) ∧
      (B.keys st = [] → get_notes B st = Except.ok []) := by
  intro σ B st ns
  constructor
  · intro h
    rw [get_notes, notesLoop_mapGet] at h
    cases hm : mapGet B st (B.keys st) with
    | error e =>
      rw [hm] at h
      simp [Except.map] at h
    | ok ns' =>
      rw [hm] at h
      simp only [Except.map, List.nil_append, Except.ok.injEq] at h
      subst h
      have hf := mapGet_ok_forall2 B st (B.keys st) ns' hm
      exact ⟨(List.Forall₂.length_eq hf).symm, hf⟩
  · intro hk
    rw [get_notes, hk]
    rfl

/-- Witness for C10: the Memory backend holding one note under key `a`
lists exactly that note, and an empty Memory backend lists nothing. -/
theorem C10_one_note_per_key_witness :
    ([Note.mk ("a") ("t") ("c")].length =
        (MemoryBackend.keys [(("a"), Note.mk ("a") ("t") ("c"))]).length ∧
      List.Forall₂ (getsTo MemoryBackend [(("a"), Note.mk ("a") ("t") ("c"))])
        (MemoryBackend.keys [(("a"), Note.mk ("a") ("t") ("c"))])
        [Note.mk ("a") ("t") ("c")]) ∧
    get_notes MemoryBackend ([] : MemState) = Except.ok [] :=
  ⟨(C10_one_note_per_key_in_order MemState MemoryBackend
      [(("a"), Note.mk ("a") ("t") ("c"))] [Note.mk ("a") ("t") ("c")]).1 rfl,
   (C10_one_note_per_key_in_order MemState MemoryBackend [] []).2 rfl⟩

end NoteApi
